import Mathlib

/-!
Verification of the orchestration-and-aggregation core of the
smart-product-finder repository: the coordinator agent
(src/agents/coordinator_agent.py), the filter agent
(src/agents/filter_agent.py), the price validator tool
(src/tools/price_validator.py) and the base-agent error wrapper
(src/agents/base_agent.py), shallowly embedded in Lean.

Modelling conventions:
- Python dicts flowing between stages become structures whose fields are
  `Option`-valued exactly where the source reads them with `dict.get` and a
  default; `x.get(k, d)` is embedded as `x.k.getD d`.
- Numeric prices are rationals; a non-numeric price value (which makes
  Python comparisons raise `TypeError`) is the `PValue.str` constructor.
- Python's stable `sorted` with a key function is embedded as
  `List.insertionSort` of the corresponding key order; a stable sort is
  extensionally determined by the key order, so any stable sort models it.
  Python's `sorted` raises `TypeError` when it compares a string key with a
  numeric key; functions that sort return `Except` and produce `.error`
  exactly when the key list mixes string and non-string keys (CPython's
  binary insertion sort compares every inserted element against the already
  sorted, hence homogeneous, prefix, so a mixed list always raises).
- `try/except` boundaries become `Except`/total functions: a step that can
  raise returns `Except String`, and the catching caller pattern-matches.
-/

namespace SmartProductFinder

/-- Model of Python `str.lower` on a single character (ASCII range, which is
all the repository's data uses). -/
def lowerChar (c : Char) : Char :=
  if 'A' ≤ c ∧ c ≤ 'Z' then Char.ofNat (c.toNat + 32) else c

/-- Model of Python `str.lower`. -/
def pyLower (s : String) : String := ⟨s.data.map lowerChar⟩

/-- Whitespace characters removed by Python `str.strip`. -/
def isPySpace (c : Char) : Bool :=
  c = ' ' || c = '\t' || c = '\n' || c = '\r' || c = '\x0b' || c = '\x0c'

/-- Model of Python `str.strip`: drop whitespace from both ends. -/
def pyStrip (s : String) : String :=
  ⟨((s.data.dropWhile isPySpace).reverse.dropWhile isPySpace).reverse⟩

/-- Lexicographic comparison of character lists by code point: the order
Python uses to compare strings. -/
def leCharList : List Char → List Char → Bool
  | [], _ => true
  | _ :: _, [] => false
  | a :: as, b :: bs => if a = b then leCharList as bs else decide (a < b)

/-- Value stored under the `price` key of a product dict: either a number
(`num`) or a non-numeric value (`str`), which Python comparison operators
reject with `TypeError`. -/
inductive PValue
  | num (q : ℚ)
  | str (s : String)
deriving DecidableEq

/-- Canonical string form of a price value, modelling the f-string
interpolation `f"{price}"` used to build deduplication keys. -/
def priceRepr : PValue → String
  | .num q => toString q
  | .str s => s

/-- Product dict as produced by the platform search providers. Every field
the aggregation core reads is read with `dict.get` and a default, so every
field is optional. -/
structure Product where
  title : Option String := none
  price : Option PValue := none
  platform : Option String := none
  url : Option String := none
  shop : Option String := none
deriving DecidableEq

/-- Price value a product contributes, modelling `product.get('price', 0)`. -/
def priceOf (p : Product) : PValue := p.price.getD (PValue.num 0)

/-- True when the stored price is a non-numeric value. -/
def hasStrPrice (p : Product) : Bool :=
  match p.price with
  | some (.str _) => true
  | _ => false

namespace PriceValidator

/-- Embedding of `PriceValidator.validate_price`
(src/tools/price_validator.py lines 16-31): `0 < price <= max_price`, with
the `TypeError`/`ValueError` of a non-numeric price caught and turned into
`False`. -/
def validate_price (price : PValue) (max_price : ℚ) : Bool :=
  match price with
  | .num q => decide (0 < q) && decide (q ≤ max_price)
  | .str _ => false

/-- Embedding of `PriceValidator.filter_by_price`
(src/tools/price_validator.py lines 33-60): keep products whose
`product.get('price', 0)` validates against `max_price`. -/
def filter_by_price (products : List Product) (max_price : ℚ) : List Product :=
  products.filter (fun p => validate_price (priceOf p) max_price)

/-- Strictly positive price a product contributes to the analysis, or
`none`. In the source the comparison `p.get('price', 0) > 0` raises on a
non-numeric price; `analyze_prices` models the raise separately, so here a
non-numeric price maps to `none`. -/
def posPrice (p : Product) : Option ℚ :=
  match priceOf p with
  | .num q => if 0 < q then some q else none
  | .str _ => none

/-- Embedding of the list comprehension
`[p.get('price', 0) for p in products if p.get('price', 0) > 0]`
(src/tools/price_validator.py line 84). -/
def positivePrices (products : List Product) : List ℚ :=
  products.filterMap posPrice

/-- Python `min` over a nonempty list (the empty case is unreachable in the
source and returns 0 here). -/
def pyMin : List ℚ → ℚ
  | [] => 0
  | x :: xs => xs.foldl min x

/-- Python `max` over a nonempty list. -/
def pyMax : List ℚ → ℚ
  | [] => 0
  | x :: xs => xs.foldl max x

/-- Per-platform price statistics (src/tools/price_validator.py lines
119-125). -/
structure PlatformStats where
  count : Nat
  average : ℚ
  min : ℚ
  max : ℚ
deriving DecidableEq

/-- Result record of `analyze_prices`. The zeroed record the source returns
early has no `by_platform` key; it is modelled with `by_platform = []`. -/
structure PriceAnalysis where
  count : Nat
  min : ℚ
  max : ℚ
  average : ℚ
  median : ℚ
  by_platform : List (String × PlatformStats) := []
deriving DecidableEq

/-- Zeroed analysis returned when there are no products or no positive
prices (src/tools/price_validator.py lines 75-93). -/
def zeroAnalysis : PriceAnalysis :=
  { count := 0, min := 0, max := 0, average := 0, median := 0, by_platform := [] }

/-- Platform tag of a product, modelling `product.get('platform', 'unknown')`
(src/tools/price_validator.py line 110). -/
def tagOf (p : Product) : String := p.platform.getD "unknown"

/-- Append a price to a platform's bucket, modelling insertion into the
`by_platform` dict: an existing key keeps its position, a new key is
appended (Python dicts preserve insertion order). -/
def insertPlat : List (String × List ℚ) → String → ℚ → List (String × List ℚ)
  | [], t, q => [(t, [q])]
  | (k, v) :: rest, t, q =>
    if k = t then (k, v ++ [q]) :: rest else (k, v) :: insertPlat rest t q

/-- Embedding of the grouping loop over `products` that fills `by_platform`
with each platform's strictly positive prices
(src/tools/price_validator.py lines 108-116). -/
def groupByPlatform (products : List Product) : List (String × List ℚ) :=
  products.foldl
    (fun acc p =>
      match posPrice p with
      | some q => insertPlat acc (tagOf p) q
      | none => acc)
    []

/-- Statistics computed for one platform's price bucket
(src/tools/price_validator.py lines 119-125). -/
def mkStats (qs : List ℚ) : PlatformStats :=
  { count := qs.length, average := qs.sum / (qs.length : ℚ),
    min := pyMin qs, max := pyMax qs }

/-- Embedding of `PriceValidator.analyze_prices`
(src/tools/price_validator.py lines 62-127). A non-numeric price makes the
comprehension's `> 0` comparison raise `TypeError`, modelled as `.error`;
otherwise the positive prices are sorted and count/min/max/average/median
plus per-platform statistics are computed. -/
def analyze_prices (products : List Product) : Except String PriceAnalysis :=
  if products.isEmpty then .ok zeroAnalysis
  else if products.any hasStrPrice then
    .error "TypeError: comparison of str and int"
  else
    let prices := positivePrices products
    if prices.isEmpty then .ok zeroAnalysis
    else
      let sorted := List.insertionSort (· ≤ ·) prices
      let count := prices.length
      let median :=
        if count % 2 = 1 then sorted.getD (count / 2) 0
        else (sorted.getD (count / 2 - 1) 0 + sorted.getD (count / 2) 0) / 2
      .ok { count := count, min := pyMin sorted, max := pyMax sorted,
            average := sorted.sum / (count : ℚ), median := median,
            by_platform :=
              (groupByPlatform products).map (fun kv => (kv.1, mkStats kv.2)) }

end PriceValidator

namespace FilterAgent

open PriceValidator

/-- Sort key of a product under `sort_by = 'price'`: the value of
`x.get('price', float('inf'))` (src/agents/filter_agent.py line 136). -/
inductive SKey
  | num (q : ℚ)
  | inf
  | str (s : String)
deriving DecidableEq

/-- Price sort key of a product: a missing price is `float('inf')`. -/
def priceSortKey (p : Product) : SKey :=
  match p.price with
  | none => .inf
  | some (.num q) => .num q
  | some (.str s) => .str s

/-- True for a string-valued sort key. -/
def keyIsStr : SKey → Bool
  | .str _ => true
  | _ => false

/-- Total Boolean order on price sort keys. On every pair Python can compare
(two numbers, a number and `inf`, two strings) it agrees with Python's `<=`;
a mixed number/string pair makes Python's `sorted` raise, which
`sort_products` models by returning `.error` before any such pair could be
compared, so the order chosen on mixed pairs (numbers and `inf` before all
strings) is never observable. -/
def leSKey : SKey → SKey → Bool
  | .num a, .num b => decide (a ≤ b)
  | .num _, .inf => true
  | .num _, .str _ => true
  | .inf, .num _ => false
  | .inf, .inf => true
  | .inf, .str _ => true
  | .str _, .num _ => false
  | .str _, .inf => false
  | .str a, .str b => leCharList a.data b.data

/-- Key order used by `sorted(products, key=lambda x: x.get('price', float('inf')))`. -/
def lePriceRel (a b : Product) : Prop :=
  leSKey (priceSortKey a) (priceSortKey b) = true

/-- Key order used by `sorted(products, key=lambda x: x.get('platform', ''))`. -/
def lePlatformRel (a b : Product) : Prop :=
  leCharList (a.platform.getD "").data (b.platform.getD "").data = true

/-- Key order used by `sorted(products, key=lambda x: x.get('title', ''))`. -/
def leTitleRel (a b : Product) : Prop :=
  leCharList (a.title.getD "").data (b.title.getD "").data = true

instance : DecidableRel lePriceRel := fun _ _ => Bool.decEq _ _
instance : DecidableRel lePlatformRel := fun _ _ => Bool.decEq _ _
instance : DecidableRel leTitleRel := fun _ _ => Bool.decEq _ _

/-- Embedding of `FilterAgent.sort_products`
(src/agents/filter_agent.py lines 120-142). The price sort raises
`TypeError` exactly when the key list mixes string and non-string values;
platform and title keys are always strings, so those sorts never raise; an
unknown `sort_by` returns the list unchanged. -/
def sort_products (products : List Product) (sort_by : String) :
    Except String (List Product) :=
  if sort_by = "price" then
    if products.any (fun p => keyIsStr (priceSortKey p)) &&
        products.any (fun p => !keyIsStr (priceSortKey p)) then
      .error "TypeError: comparison of str and number"
    else .ok (List.insertionSort lePriceRel products)
  else if sort_by = "platform" then .ok (List.insertionSort lePlatformRel products)
  else if sort_by = "title" then .ok (List.insertionSort leTitleRel products)
  else .ok products

/-- Embedding of `PriceValidator.find_best_deals`
(src/tools/price_validator.py lines 129-156): sort by the same price key as
the price sort and take the first `top_n`. Raises like any Python price
sort on a mixed key list. -/
def find_best_deals (products : List Product) (top_n : Nat) :
    Except String (List Product) :=
  if products.isEmpty then .ok []
  else if products.any (fun p => keyIsStr (priceSortKey p)) &&
      products.any (fun p => !keyIsStr (priceSortKey p)) then
    .error "TypeError: comparison of str and number"
  else .ok ((List.insertionSort lePriceRel products).take top_n)

/-- Deduplication key of a product
(src/agents/filter_agent.py lines 104-106):
`f"{product.get('title', '').lower().strip()}_{product.get('price', 0)}"`. -/
def productKey (p : Product) : String :=
  pyStrip (pyLower (p.title.getD "")) ++ "_" ++ priceRepr (priceOf p)

/-- Loop of `FilterAgent.remove_duplicates` with its `seen` set of keys
(src/agents/filter_agent.py lines 99-113). -/
def removeDupAux (seen : List String) : List Product → List Product
  | [] => []
  | p :: rest =>
    let key := productKey p
    if key ∈ seen then removeDupAux seen rest
    else p :: removeDupAux (key :: seen) rest

/-- Embedding of `FilterAgent.remove_duplicates`
(src/agents/filter_agent.py lines 89-118). -/
def remove_duplicates (products : List Product) : List Product :=
  removeDupAux [] products

/-- Search criteria dict (brand, model, max_price), all read with
defaults. -/
structure SearchCriteria where
  brand : Option String := none
  model : Option String := none
  max_price : Option ℚ := none
deriving DecidableEq

/-- Python truthiness of `search_criteria.get('max_price')`: `None` and `0`
are falsy, every other number is truthy
(src/agents/filter_agent.py line 51). -/
def truthyPrice : Option ℚ → Bool
  | none => false
  | some m => decide (m ≠ 0)

/-- Price-filter step of the pipeline (src/agents/filter_agent.py lines
50-53): run `filter_by_price` only when `max_price` is truthy, otherwise
pass the products through unchanged. -/
def applyPriceFilter (c : SearchCriteria) (products : List Product) :
    List Product :=
  if truthyPrice c.max_price then
    filter_by_price products (c.max_price.getD 0)
  else products

/-- Task dict accepted by `FilterAgent.execute`, with the source's
defaults. -/
structure FilterTask where
  products : List Product := []
  search_criteria : SearchCriteria := {}
  filter_duplicates : Bool := true
  sort_by : String := "price"

/-- Result dict of `FilterAgent.execute`; the success shape carries
`price_analysis` and `best_deals`, the degraded shape carries `error`. -/
structure FilterResult where
  status : String
  filtered_products : List Product
  original_count : Nat
  filtered_count : Nat
  price_analysis : Option PriceAnalysis := none
  best_deals : Option (List Product) := none
  error : Option String := none
deriving DecidableEq

/-- Degraded result built by the `except` branch of `FilterAgent.execute`
(src/agents/filter_agent.py lines 79-87). The source computes
`'original_count': len(products)` where `products` is the local variable
that the pipeline steps have been rebinding, so the count passed here is
the length of the product list at the point the exception was raised. -/
def degradedResult (n : Nat) (e : String) : FilterResult :=
  { status := "error", filtered_products := [], original_count := n,
    filtered_count := 0, error := some e }

/-- Value of the rebound `products` variable after the price-filter and
deduplication steps of `FilterAgent.execute`
(src/agents/filter_agent.py lines 49-58). -/
def pipelineInput (task : FilterTask) : List Product :=
  let products1 := applyPriceFilter task.search_criteria task.products
  if task.filter_duplicates then remove_duplicates products1 else products1

/-- Embedding of `FilterAgent.execute`
(src/agents/filter_agent.py lines 18-87): price filter, deduplication,
sort, price analysis, best deals, with any step's exception caught and
turned into a degraded result carrying the length of the rebound
`products` variable at the point of the raise. -/
def execute (task : FilterTask) : FilterResult :=
  match sort_products (pipelineInput task) task.sort_by with
  | .error e => degradedResult (pipelineInput task).length e
  | .ok products3 =>
    match analyze_prices products3 with
    | .error e => degradedResult products3.length e
    | .ok pa =>
      match find_best_deals products3 5 with
      | .error e => degradedResult products3.length e
      | .ok bd =>
        { status := "success", filtered_products := products3,
          original_count := task.products.length,
          filtered_count := products3.length,
          price_analysis := some pa, best_deals := some bd, error := none }

end FilterAgent

/-- Result dict of one platform provider invocation, as read by the
coordinator with `dict.get` defaults: `status` defaults to the empty
string (a missing key compares unequal to `'success'`), `products` to `[]`,
`count` to `0`. -/
structure PlatformResult where
  status : String := ""
  platform : Option String := none
  products : List Product := []
  count : Nat := 0
  error : Option String := none
deriving DecidableEq

/-- Behaviour of one provider's `execute` coroutine for the given task:
either a returned result dict or a raised exception message. -/
inductive ProviderOutcome
  | ok (r : PlatformResult)
  | raise (e : String)

namespace BaseAgent

/-- Embedding of `BaseAgent.run` (src/agents/base_agent.py lines 45-61): a
raised exception is caught and turned into
`{'status': 'error', 'error': str(e), 'agent': ...}` (the `agent` key is
never read by the coordinator and is not modelled; the missing `products`
and `count` keys read back as their defaults). -/
def run (outcome : ProviderOutcome) : PlatformResult :=
  match outcome with
  | .ok r => r
  | .raise e => { status := "error", error := some e }

end BaseAgent

namespace CoordinatorAgent

open FilterAgent

/-- Keys of the fixed `agent_map` provider registry
(src/agents/coordinator_agent.py lines 74-78). -/
def agentRegistry : List String := ["jd", "taobao", "pdd"]

/-- Task dict accepted by `CoordinatorAgent.execute`, with the source's
default platform list. `max_results_per_platform` and `parallel` only
affect how providers are driven, not which results are combined: both the
`asyncio.gather` branch and the sequential branch collect the results in
`search_tasks` order, so the embedding covers both. -/
structure CoordTask where
  search_criteria : SearchCriteria := {}
  platforms : List String := ["jd", "taobao", "pdd"]

/-- Summary dict built by `CoordinatorAgent.generate_summary`
(src/agents/coordinator_agent.py lines 160-190). -/
structure Summary where
  total_products_found : Nat
  after_filtering : Nat
  successful_platforms : List String
  failed_platforms : List String
  search_query : String
  max_price : ℚ
deriving DecidableEq

/-- Embedding of `CoordinatorAgent.generate_summary`: the sum of `count`
over successful platform results, the filtered count, the success/failure
platform lists in insertion order, the trimmed `brand model` query and the
echoed `max_price`. -/
def generate_summary (criteria : SearchCriteria)
    (results_by_platform : List (String × PlatformResult))
    (filter_result : FilterResult) : Summary :=
  { total_products_found :=
      ((results_by_platform.filter
          (fun pr => decide (pr.2.status = "success"))).map
        (fun pr => pr.2.count)).sum
    after_filtering := filter_result.filtered_count
    successful_platforms :=
      (results_by_platform.filter
          (fun pr => decide (pr.2.status = "success"))).map Prod.fst
    failed_platforms :=
      (results_by_platform.filter
          (fun pr => decide (pr.2.status ≠ "success"))).map Prod.fst
    search_query :=
      pyStrip ((criteria.brand.getD "") ++ " " ++ (criteria.model.getD ""))
    max_price := criteria.max_price.getD 0 }

/-- Result dict of `CoordinatorAgent.execute`. In the embedding no step of
the coordinator body can raise (every provider failure is already data), so
the `except` branch of lines 152-158 is unreachable and the success shape
is the only one produced. -/
structure CoordResult where
  status : String
  results_by_platform : List (String × PlatformResult)
  all_products : List Product
  filtered_products : List Product
  best_deals : List Product
  price_analysis : Option PriceValidator.PriceAnalysis
  summary : Summary

/-- Embedding of `CoordinatorAgent.execute`
(src/agents/coordinator_agent.py lines 32-158). `providers` gives each
platform id's provider behaviour for this task. Requested platforms not in
the registry are skipped; each remaining platform is invoked through
`BaseAgent.run`; results are collected in request order (`asyncio.gather`
returns results in argument order, and the sequential branch appends in the
same order); products of successful results are concatenated by the
`extend` loop; the combined list is handed to `FilterAgent.execute` with
`filter_duplicates=True, sort_by='price'`. -/
def execute (providers : String → ProviderOutcome) (task : CoordTask) :
    CoordResult :=
  let search_tasks := task.platforms.filter (fun p => decide (p ∈ agentRegistry))
  let results_by_platform :=
    search_tasks.map (fun p => (p, BaseAgent.run (providers p)))
  let all_products :=
    results_by_platform.foldl
      (fun acc pr =>
        if pr.2.status = "success" then acc ++ pr.2.products else acc)
      []
  let filter_result :=
    FilterAgent.execute
      { products := all_products, search_criteria := task.search_criteria,
        filter_duplicates := true, sort_by := "price" }
  let summary := generate_summary task.search_criteria results_by_platform filter_result
  { status := "success", results_by_platform := results_by_platform,
    all_products := all_products,
    filtered_products := filter_result.filtered_products,
    best_deals := filter_result.best_deals.getD [],
    price_analysis := filter_result.price_analysis,
    summary := summary }

end CoordinatorAgent

namespace FilterAgent

/-- Specification-side description of first-occurrence deduplication: walk
the list keeping a product exactly when no product earlier in the original
list (the accumulated prefix `pre`) has the same identity key. -/
def firstOccFrom (pre : List Product) : List Product → List Product
  | [] => []
  | p :: rest =>
    if pre.any (fun q => decide (productKey q = productKey p)) then
      firstOccFrom (pre ++ [p]) rest
    else p :: firstOccFrom (pre ++ [p]) rest

/-- Specification-side deduplication: keep exactly the first occurrence (in
original relative order) of each identity key. -/
def firstOccurrenceSpec (l : List Product) : List Product := firstOccFrom [] l

/-- Specification-side in-budget predicate of the price filter:
the product's price (with the source's `0` default for a missing key) is a
number `q` with `0 < q ≤ m`. -/
def inBudget (m : ℚ) (p : Product) : Prop :=
  ∃ q, priceOf p = PValue.num q ∧ 0 < q ∧ q ≤ m

end FilterAgent

namespace PriceValidator

/-- Specification-side list of one platform's strictly positive prices, in
product order: the prices that platform `t`'s products contribute to the
per-platform analysis. -/
def platformPrices (t : String) (products : List Product) : List ℚ :=
  (products.filter (fun p => decide (tagOf p = t))).filterMap posPrice

end PriceValidator

section ConcreteInputs

open FilterAgent CoordinatorAgent

/-- Concrete product with a non-numeric price (title `a`). -/
def cA : Product := { title := some "a", price := some (.str "x") }

/-- Concrete duplicate of `cA` up to platform: same title and price. -/
def cA2 : Product :=
  { title := some "a", price := some (.str "x"), platform := some "jd" }

/-- Concrete product with numeric price 1. -/
def cB : Product := { title := some "b", price := some (.num 1) }

/-- Filter task whose pipeline raises in the sort step after deduplication
has removed a product: no `max_price`, duplicates `cA`/`cA2`, and a list
mixing a non-numeric and a numeric price. -/
def c2task : FilterTask := { products := [cA, cA2, cB] }

/-- Concrete products for the price-filter witness. -/
def w3a : Product := { title := some "in", price := some (.num 50) }

def w3b : Product := { title := some "over", price := some (.num 150) }

def w3c : Product := { title := some "nil" }

def w3d : Product := { title := some "bad", price := some (.str "n/a") }

def w3e : Product := { title := some "zero", price := some (.num 0) }

/-- Concrete product list for the price-filter witness. -/
def w3l : List Product := [w3a, w3b, w3c, w3d, w3e]

/-- Concrete products with prices 10, 20, 30, 40 (20 and 30 on platform
`jd`). -/
def q10 : Product := { title := some "p", price := some (.num 10) }

def q20 : Product :=
  { title := some "q", price := some (.num 20), platform := some "jd" }

def q30 : Product :=
  { title := some "r", price := some (.num 30), platform := some "jd" }

def q40 : Product := { title := some "s", price := some (.num 40) }

/-- Filter task used by the success-path witnesses. -/
def c5task : FilterTask := { products := [q20, q10, q30] }

/-- Concrete products for the best-deals disagreement input: price 5, price
0, and a missing price. -/
def pB5 : Product :=
  { title := some "b", price := some (.num 5), platform := some "jd" }

def pA0 : Product := { title := some "a", price := some (.num 0) }

def pCn : Product := { title := some "c" }

/-- Filter task with no `max_price` whose products include a zero price and
a missing price. -/
def c10task : FilterTask := { products := [pB5, pA0, pCn] }

/-- Concrete products for the sort witness. -/
def w8a : Product := { title := some "t1", price := some (.num 5) }

def w8b : Product := { title := some "t2" }

def w8c : Product := { title := some "t3", price := some (.num 1) }

/-- Concrete product list for the sort witness. -/
def w8l : List Product := [w8a, w8b, w8c]

/-- Provider behaviour of the failure scenario: `jd` raises, `taobao`
succeeds with two products, anything else succeeds with none. -/
def provB : String → ProviderOutcome := fun p =>
  if p = "jd" then .raise "boom"
  else if p = "taobao" then
    .ok { status := "success", platform := some "taobao",
          products := [q10, q20], count := 2 }
  else .ok { status := "success", products := [], count := 0 }

/-- Coordinator task of the failure scenario, including an unknown
platform id. -/
def taskB : CoordTask := { platforms := ["jd", "taobao", "unknown"] }

end ConcreteInputs

section OrderLemmas

theorem leCharList_nil_left (l : List Char) : leCharList [] l = true := rfl

theorem leCharList_total : ∀ a b : List Char,
    leCharList a b = true ∨ leCharList b a = true
  | [], _ => Or.inl rfl
  | _ :: _, [] => Or.inr rfl
  | a :: as, b :: bs => by
    by_cases hab : a = b
    · subst hab
      simpa [leCharList] using leCharList_total as bs
    · rcases lt_trichotomy a b with h | h | h
      · exact Or.inl (by simp [leCharList, hab, h])
      · exact absurd h hab
      · exact Or.inr (by simp [leCharList, Ne.symm hab, h])

theorem leCharList_trans : ∀ a b c : List Char,
    leCharList a b = true → leCharList b c = true → leCharList a c = true
  | [], _, c => fun _ _ => leCharList_nil_left c
  | a :: as, [], _ => fun h _ => by simp [leCharList] at h
  | _ :: _, _ :: bs, [] => fun _ h => by simp [leCharList] at h
  | a :: as, b :: bs, c :: cs => by
    intro h1 h2
    by_cases hab : a = b <;> by_cases hbc : b = c
    · subst hab; subst hbc
      simp [leCharList] at h1 h2 ⊢
      exact leCharList_trans as bs cs h1 h2
    · subst hab
      simp [leCharList, hbc] at h2 ⊢
      simpa [hbc] using h2
    · subst hbc
      simp [leCharList, hab] at h1 ⊢
      simpa [hab] using h1
    · simp [leCharList, hab, hbc] at h1 h2
      have hac : a < c := lt_trans h1 h2
      simp [leCharList, ne_of_lt hac, hac]

open FilterAgent in
theorem leSKey_total : ∀ k l : SKey, leSKey k l = true ∨ leSKey l k = true := by
  intro k l
  cases k <;> cases l <;> simp [leSKey]
  · exact le_total _ _
  · exact leCharList_total _ _

open FilterAgent in
theorem leSKey_trans : ∀ k l m : SKey,
    leSKey k l = true → leSKey l m = true → leSKey k m = true := by
  intro k l m h1 h2
  cases k <;> cases l <;> cases m <;>
    simp [leSKey] at h1 h2 ⊢ <;>
    first
      | exact le_trans h1 h2
      | exact leCharList_trans _ _ _ h1 h2

namespace FilterAgent

instance : IsTotal Product lePriceRel := ⟨fun _ _ => leSKey_total _ _⟩

instance : IsTrans Product lePriceRel :=
  ⟨fun _ _ _ h1 h2 => leSKey_trans _ _ _ h1 h2⟩

instance : IsTotal Product lePlatformRel := ⟨fun _ _ => leCharList_total _ _⟩

instance : IsTrans Product lePlatformRel :=
  ⟨fun _ _ _ h1 h2 => leCharList_trans _ _ _ h1 h2⟩

instance : IsTotal Product leTitleRel := ⟨fun _ _ => leCharList_total _ _⟩

instance : IsTrans Product leTitleRel :=
  ⟨fun _ _ _ h1 h2 => leCharList_trans _ _ _ h1 h2⟩

end FilterAgent

end OrderLemmas

section MinMaxLemmas

theorem foldl_min_mem : ∀ (xs : List ℚ) (x : ℚ),
    xs.foldl min x = x ∨ xs.foldl min x ∈ xs
  | [], _ => Or.inl rfl
  | y :: ys, x => by
    rw [List.foldl_cons]
    rcases foldl_min_mem ys (min x y) with h | h
    · rcases min_choice x y with hm | hm
      · exact Or.inl (by rw [h, hm])
      · exact Or.inr (by rw [h, hm]; exact List.mem_cons_self _ _)
    · exact Or.inr (List.mem_cons_of_mem _ h)

theorem foldl_min_le_init : ∀ (xs : List ℚ) (x : ℚ), xs.foldl min x ≤ x
  | [], x => le_refl x
  | y :: ys, x => by
    rw [List.foldl_cons]
    exact le_trans (foldl_min_le_init ys (min x y)) (min_le_left _ _)

theorem foldl_min_le_mem : ∀ (xs : List ℚ) (x : ℚ), ∀ y ∈ xs, xs.foldl min x ≤ y
  | [], _, _, hy => absurd hy (List.not_mem_nil _)
  | z :: zs, x, y, hy => by
    rw [List.foldl_cons]
    rcases List.mem_cons.mp hy with h | h
    · subst h
      exact le_trans (foldl_min_le_init zs _) (min_le_right _ _)
    · exact foldl_min_le_mem zs _ y h

theorem foldl_max_mem : ∀ (xs : List ℚ) (x : ℚ),
    xs.foldl max x = x ∨ xs.foldl max x ∈ xs
  | [], _ => Or.inl rfl
  | y :: ys, x => by
    rw [List.foldl_cons]
    rcases foldl_max_mem ys (max x y) with h | h
    · rcases max_choice x y with hm | hm
      · exact Or.inl (by rw [h, hm])
      · exact Or.inr (by rw [h, hm]; exact List.mem_cons_self _ _)
    · exact Or.inr (List.mem_cons_of_mem _ h)

theorem le_foldl_max_init : ∀ (xs : List ℚ) (x : ℚ), x ≤ xs.foldl max x
  | [], x => le_refl x
  | y :: ys, x => by
    rw [List.foldl_cons]
    exact le_trans (le_max_left _ _) (le_foldl_max_init ys (max x y))

theorem mem_le_foldl_max : ∀ (xs : List ℚ) (x : ℚ), ∀ y ∈ xs, y ≤ xs.foldl max x
  | [], _, _, hy => absurd hy (List.not_mem_nil _)
  | z :: zs, x, y, hy => by
    rw [List.foldl_cons]
    rcases List.mem_cons.mp hy with h | h
    · subst h
      exact le_trans (le_max_right _ _) (le_foldl_max_init zs _)
    · exact mem_le_foldl_max zs _ y h

namespace PriceValidator

theorem pyMin_mem (l : List ℚ) (h : l ≠ []) : pyMin l ∈ l := by
  match l with
  | [] => exact absurd rfl h
  | x :: xs =>
    show xs.foldl min x ∈ x :: xs
    rcases foldl_min_mem xs x with h1 | h1
    · rw [h1]; exact List.mem_cons_self _ _
    · exact List.mem_cons_of_mem _ h1

theorem pyMin_le (l : List ℚ) : ∀ y ∈ l, pyMin l ≤ y := by
  match l with
  | [] => intro y hy; exact absurd hy (List.not_mem_nil _)
  | x :: xs =>
    intro y hy
    rcases List.mem_cons.mp hy with h | h
    · subst h; exact foldl_min_le_init xs y
    · exact foldl_min_le_mem xs x y h

theorem pyMax_mem (l : List ℚ) (h : l ≠ []) : pyMax l ∈ l := by
  match l with
  | [] => exact absurd rfl h
  | x :: xs =>
    show xs.foldl max x ∈ x :: xs
    rcases foldl_max_mem xs x with h1 | h1
    · rw [h1]; exact List.mem_cons_self _ _
    · exact List.mem_cons_of_mem _ h1

theorem le_pyMax (l : List ℚ) : ∀ y ∈ l, y ≤ pyMax l := by
  match l with
  | [] => intro y hy; exact absurd hy (List.not_mem_nil _)
  | x :: xs =>
    intro y hy
    rcases List.mem_cons.mp hy with h | h
    · subst h; exact le_foldl_max_init xs y
    · exact mem_le_foldl_max xs x y h

end PriceValidator

end MinMaxLemmas

section DedupLemmas

namespace FilterAgent

theorem removeDupAux_eq_firstOccFrom :
    ∀ (l : List Product) (seen : List String) (pre : List Product),
      (∀ k, k ∈ seen ↔ ∃ q ∈ pre, productKey q = k) →
      removeDupAux seen l = firstOccFrom pre l := by
  intro l
  induction l with
  | nil => intro seen pre _; rfl
  | cons p rest ih =>
    intro seen pre hinv
    have hany : (pre.any (fun q => decide (productKey q = productKey p)) = true)
        ↔ productKey p ∈ seen := by
      rw [hinv]
      simp [List.any_eq_true]
    by_cases h : productKey p ∈ seen
    · rw [removeDupAux, firstOccFrom]
      simp only [h, if_true, hany.mpr h]
      exact ih seen (pre ++ [p]) (by
        intro k
        rw [hinv]
        constructor
        · rintro ⟨q, hq, hk⟩
          exact ⟨q, List.mem_append_left _ hq, hk⟩
        · rintro ⟨q, hq, hk⟩
          rcases List.mem_append.mp hq with hq | hq
          · exact ⟨q, hq, hk⟩
          · have : q = p := by simpa using hq
            subst this
            subst hk
            exact (hinv _).mp h)
    · rw [removeDupAux, firstOccFrom]
      have hany2 : pre.any (fun q => decide (productKey q = productKey p)) = false := by
        rw [← Bool.not_eq_true, hany]
        exact h
      simp only [h, if_false, hany2, Bool.false_eq_true]
      refine congrArg (p :: ·) (ih (productKey p :: seen) (pre ++ [p]) ?_)
      intro k
      constructor
      · intro hk
        rcases List.mem_cons.mp hk with hk | hk
        · exact ⟨p, List.mem_append_right _ (List.mem_cons_self _ _), hk.symm⟩
        · obtain ⟨q, hq, hqk⟩ := (hinv k).mp hk
          exact ⟨q, List.mem_append_left _ hq, hqk⟩
      · rintro ⟨q, hq, hk⟩
        rcases List.mem_append.mp hq with hq | hq
        · exact List.mem_cons_of_mem _ ((hinv k).mpr ⟨q, hq, hk⟩)
        · have : q = p := by simpa using hq
          subst this
          exact hk ▸ List.mem_cons_self _ _

theorem removeDupAux_keys :
    ∀ (l : List Product) (seen : List String),
      ((removeDupAux seen l).map productKey).Nodup ∧
        ∀ k ∈ (removeDupAux seen l).map productKey, k ∉ seen := by
  intro l
  induction l with
  | nil => intro seen; simp [removeDupAux]
  | cons p rest ih =>
    intro seen
    by_cases h : productKey p ∈ seen
    · simpa [removeDupAux, h] using ih seen
    · obtain ⟨ihn, ihs⟩ := ih (productKey p :: seen)
      constructor
      · rw [removeDupAux]
        simp only [h, if_false]
        rw [List.map_cons, List.nodup_cons]
        refine ⟨fun hmem => ?_, ihn⟩
        exact (ihs _ hmem) (List.mem_cons_self _ _)
      · intro k hk
        rw [removeDupAux] at hk
        simp only [h, if_false, List.map_cons] at hk
        rcases List.mem_cons.mp hk with hk | hk
        · exact hk ▸ h
        · exact fun hks => (ihs _ hk) (List.mem_cons_of_mem _ hks)

theorem removeDupAux_id :
    ∀ (l : List Product) (seen : List String),
      (l.map productKey).Nodup → (∀ k ∈ l.map productKey, k ∉ seen) →
      removeDupAux seen l = l := by
  intro l
  induction l with
  | nil => intro seen _ _; rfl
  | cons p rest ih =>
    intro seen hnd hdisj
    rw [List.map_cons, List.nodup_cons] at hnd
    have hp : productKey p ∉ seen := hdisj _ (by simp)
    rw [removeDupAux]
    simp only [hp, if_false]
    refine congrArg (p :: ·) (ih (productKey p :: seen) hnd.2 ?_)
    intro k hk hks
    rcases List.mem_cons.mp hks with hks | hks
    · subst hks
      exact hnd.1 hk
    · exact hdisj k (List.mem_cons_of_mem _ hk) hks

end FilterAgent

end DedupLemmas

section CollectLemmas

namespace CoordinatorAgent

theorem foldl_collect :
    ∀ (rs : List (String × PlatformResult)) (acc : List Product),
      rs.foldl
          (fun acc pr =>
            if pr.2.status = "success" then acc ++ pr.2.products else acc)
          acc
        = acc ++
            (rs.filter (fun pr => decide (pr.2.status = "success"))).flatMap
              (fun pr => pr.2.products) := by
  intro rs
  induction rs with
  | nil => intro acc; simp
  | cons pr rest ih =>
    intro acc
    by_cases h : pr.2.status = "success"
    · rw [List.foldl_cons, if_pos h, ih, List.filter_cons_of_pos (by simpa using h),
        List.flatMap_cons, List.append_assoc]
    · rw [List.foldl_cons, if_neg h, ih, List.filter_cons_of_neg (by simpa using h)]

end CoordinatorAgent

end CollectLemmas

section GroupLemmas

namespace PriceValidator

theorem lookup_insertPlat :
    ∀ (acc : List (String × List ℚ)) (t : String) (q : ℚ) (u : String),
      (insertPlat acc t q).lookup u =
        if u = t then some (((acc.lookup t).getD []) ++ [q])
        else acc.lookup u := by
  intro acc
  induction acc with
  | nil =>
    intro t q u
    by_cases h : u = t
    · subst h; simp [insertPlat, List.lookup]
    · have hb : (u == t) = false := beq_eq_false_iff_ne.mpr h
      simp [insertPlat, List.lookup, hb, h]
  | cons kv rest ih =>
    intro t q u
    obtain ⟨k, v⟩ := kv
    by_cases hkt : k = t
    · subst hkt
      by_cases huk : u = k
      · subst huk
        simp [insertPlat, List.lookup]
      · have hb : (u == k) = false := beq_eq_false_iff_ne.mpr huk
        simp [insertPlat, List.lookup, hb, huk]
    · have hb2 : (t == k) = false := beq_eq_false_iff_ne.mpr (Ne.symm hkt)
      by_cases huk : u = k
      · subst huk
        simp [insertPlat, hkt, List.lookup]
      · have hb : (u == k) = false := beq_eq_false_iff_ne.mpr huk
        simp [insertPlat, hkt, List.lookup, hb, hb2, ih]

theorem lookup_groupFold :
    ∀ (l : List Product) (acc : List (String × List ℚ)) (t : String),
      (l.foldl
          (fun acc p =>
            match posPrice p with
            | some q => insertPlat acc (tagOf p) q
            | none => acc)
          acc).lookup t
        = if acc.lookup t = none ∧ platformPrices t l = [] then none
          else some (((acc.lookup t).getD []) ++ platformPrices t l) := by
  intro l
  induction l with
  | nil =>
    intro acc t
    cases h : acc.lookup t <;> simp [platformPrices, h]
  | cons p rest ih =>
    intro acc t
    rw [List.foldl_cons]
    cases hp : posPrice p with
    | none =>
      have hpp : platformPrices t (p :: rest) = platformPrices t rest := by
        by_cases htag : tagOf p = t
        · simp [platformPrices, htag, List.filter_cons, hp]
        · simp [platformPrices, htag, List.filter_cons]
      simp only [hp]
      rw [ih, hpp]
    | some q =>
      by_cases htag : tagOf p = t
      · subst htag
        have hpp : platformPrices (tagOf p) (p :: rest)
            = q :: platformPrices (tagOf p) rest := by
          simp [platformPrices, List.filter_cons, hp]
        have hlk : (insertPlat acc (tagOf p) q).lookup (tagOf p)
            = some (((acc.lookup (tagOf p)).getD []) ++ [q]) := by
          rw [lookup_insertPlat, if_pos rfl]
        simp only [hp]
        rw [ih, hlk, hpp]
        simp
      · have hpp : platformPrices t (p :: rest) = platformPrices t rest := by
          simp [platformPrices, List.filter_cons, htag]
        have hlk : (insertPlat acc (tagOf p) q).lookup t = acc.lookup t := by
          rw [lookup_insertPlat, if_neg (fun h => htag h.symm)]
        simp only [hp]
        rw [ih, hlk, hpp]

theorem lookup_map_pair {β : Type} :
    ∀ (l : List (String × List ℚ)) (f : List ℚ → β) (t : String),
      (l.map (fun kv => (kv.1, f kv.2))).lookup t = (l.lookup t).map f := by
  intro l f
  induction l with
  | nil => intro t; simp [List.lookup]
  | cons kv rest ih =>
    intro t
    obtain ⟨k, v⟩ := kv
    by_cases h : t = k
    · subst h; simp [List.lookup]
    · have hb : (t == k) = false := beq_eq_false_iff_ne.mpr h
      simp [List.lookup, hb, ih]

theorem lookup_groupByPlatform (products : List Product) (t : String) :
    (groupByPlatform products).lookup t =
      if platformPrices t products = [] then none
      else some (platformPrices t products) := by
  unfold groupByPlatform
  rw [lookup_groupFold]
  by_cases h : platformPrices t products = [] <;>
    simp [List.lookup, h]

end PriceValidator

end GroupLemmas

section PipelineLemmas

namespace FilterAgent

open PriceValidator

theorem keyIsStr_priceSortKey (p : Product) :
    keyIsStr (priceSortKey p) = hasStrPrice p := by
  cases hp : p.price with
  | none => simp [priceSortKey, hasStrPrice, keyIsStr, hp]
  | some pv => cases pv <;> simp [priceSortKey, hasStrPrice, keyIsStr, hp]

theorem degradedResult_status (n : Nat) (e : String) :
    (degradedResult n e).status = "error" := rfl

theorem analyze_ok_no_str (l : List Product) (pa : PriceAnalysis)
    (h : analyze_prices l = .ok pa) (hne : l.isEmpty = false) :
    l.any hasStrPrice = false := by
  unfold analyze_prices at h
  rw [hne] at h
  by_cases hs : l.any hasStrPrice = true
  · rw [if_neg (by simp)] at h
    rw [if_pos hs] at h
    exact absurd h (by simp)
  · exact Bool.not_eq_true _ ▸ hs

theorem find_best_deals_ok (l : List Product)
    (h : l.any hasStrPrice = false) :
    find_best_deals l 5 = .ok ((List.insertionSort lePriceRel l).take 5) := by
  unfold find_best_deals
  by_cases hl : l.isEmpty
  · have : l = [] := by simpa using hl
    subst this
    simp [List.insertionSort]
  · rw [if_neg hl]
    have hk : l.any (fun p => keyIsStr (priceSortKey p)) = false := by
      rw [← h]
      exact congrArg _ (funext fun p => keyIsStr_priceSortKey p)
    rw [hk]
    simp

theorem find_best_deals_ok_shape (l bd : List Product)
    (h : find_best_deals l 5 = .ok bd) :
    bd = (List.insertionSort lePriceRel l).take 5 := by
  unfold find_best_deals at h
  split at h
  · rename_i hl
    cases h
    have hnil : l = [] := by simpa using hl
    subst hnil
    rfl
  · split at h
    · exact absurd h (by simp)
    · cases h
      rfl

theorem any_hasStrPrice_false (products : List Product)
    (hnum : products.all (fun p => !hasStrPrice p) = true) :
    products.any hasStrPrice = false := by
  rw [List.any_eq_false]
  intro p hp
  have := List.all_eq_true.mp hnum p hp
  simpa using this

theorem sort_products_ok_perm (l : List Product) (s : String) (out : List Product)
    (h : sort_products l s = .ok out) : out.Perm l := by
  unfold sort_products at h
  by_cases h1 : s = "price"
  · rw [if_pos h1] at h
    by_cases h2 : l.any (fun p => keyIsStr (priceSortKey p)) &&
        l.any (fun p => !keyIsStr (priceSortKey p))
    · rw [if_pos h2] at h; exact absurd h (by simp)
    · rw [if_neg h2] at h
      cases h
      exact List.perm_insertionSort _ _
  · rw [if_neg h1] at h
    by_cases h2 : s = "platform"
    · rw [if_pos h2] at h
      cases h
      exact List.perm_insertionSort _ _
    · rw [if_neg h2] at h
      by_cases h3 : s = "title"
      · rw [if_pos h3] at h
        cases h
        exact List.perm_insertionSort _ _
      · rw [if_neg h3] at h
        cases h
        exact List.Perm.refl _

end FilterAgent

end PipelineLemmas

section ClaimTheorems

open PriceValidator FilterAgent CoordinatorAgent

/-- C9: deduplication is idempotent: for every product list, applying
`remove_duplicates` to its own output returns that output unchanged. -/
theorem remove_duplicates_idempotent (l : List Product) :
    remove_duplicates (remove_duplicates l) = remove_duplicates l :=
  removeDupAux_id (removeDupAux [] l) []
    (removeDupAux_keys l []).1
    (fun k _ => List.not_mem_nil k)

/-- C4: deduplication keeps exactly the first occurrence, in original
relative order, of each identity key (lowercased, trimmed title, `_`, then
the price), and the key ignores platform, url and shop, so two products
that agree on title and price are duplicates regardless of those fields. -/
theorem remove_duplicates_first_occurrence (l : List Product) :
    remove_duplicates l = firstOccurrenceSpec l ∧
    ∀ (t : Option String) (pv : Option PValue)
      (pl1 pl2 u1 u2 s1 s2 : Option String),
      productKey { title := t, price := pv, platform := pl1, url := u1, shop := s1 }
        = productKey { title := t, price := pv, platform := pl2, url := u2, shop := s2 } :=
  ⟨removeDupAux_eq_firstOccFrom l [] [] (by simp),
   fun _ _ _ _ _ _ _ _ => rfl⟩

/-- C2 (code bug evidence): on a task with no `max_price`, duplicate
products with a non-numeric price and a third numeric-priced product, the
sort step raises after deduplication has removed one product; the degraded
result has status `error`, an empty filtered list, `filtered_count = 0`
and an error field as the claim says, but its `original_count` is 2, the
length of the rebound `products` variable at the raise point, not the
input length 3: the source's except branch computes
`'original_count': len(products)` after the pipeline steps rebound
`products`, so the original count is not preserved. -/
theorem filter_error_shrinks_original_count :
    (FilterAgent.execute c2task).status = "error" ∧
    (FilterAgent.execute c2task).filtered_products = [] ∧
    (FilterAgent.execute c2task).filtered_count = 0 ∧
    (FilterAgent.execute c2task).error.isSome = true ∧
    c2task.products.length = 3 ∧
    (FilterAgent.execute c2task).original_count = 2 := by
  refine ⟨by decide, by decide, by decide, by decide, by decide, by decide⟩

/-- C10: with `max_price` absent the price filter is skipped, and
`find_best_deals` does not exclude non-positive or missing prices: on a
concrete input the first best deal has price 0, the missing-price product
sorts last, yet `price_analysis.count` only counts the one strictly
positive price — best deals and price analysis disagree on which products
count. -/
theorem best_deals_disagree_with_analysis :
    (FilterAgent.execute c10task).status = "success" ∧
    truthyPrice c10task.search_criteria.max_price = false ∧
    ((FilterAgent.execute c10task).best_deals.getD []).head? = some pA0 ∧
    pA0.price = some (PValue.num 0) ∧
    ((FilterAgent.execute c10task).best_deals.getD []).getLast? = some pCn ∧
    pCn.price = none ∧
    ((FilterAgent.execute c10task).price_analysis.map (fun a => a.count)) = some 1 := by
  refine ⟨by decide, by decide, by decide, rfl, by decide, rfl, by decide⟩

/-- C3: when `max_price` is truthy the price filter keeps exactly the
products whose numeric price `q` satisfies `0 < q ≤ max_price`
(order-preserving: the result is a sublist containing precisely the
in-budget products); a non-numeric, missing or out-of-range price is
dropped without raising, so every survivor carries a numeric price in
range; when `max_price` is absent or falsy (including 0) the step is
skipped entirely. -/
theorem price_filter_spec (products : List Product) (m : ℚ) (c : SearchCriteria) :
    (∀ v : PValue, validate_price v m = true ↔ ∃ q, v = PValue.num q ∧ 0 < q ∧ q ≤ m) ∧
    (∀ p ∈ filter_by_price products m,
      ∃ q, p.price = some (PValue.num q) ∧ 0 < q ∧ q ≤ m) ∧
    (filter_by_price products m).Sublist products ∧
    (∀ p ∈ products, inBudget m p → p ∈ filter_by_price products m) ∧
    (truthyPrice c.max_price = false → applyPriceFilter c products = products) ∧
    (∀ m2, c.max_price = some m2 → m2 ≠ 0 →
      applyPriceFilter c products = filter_by_price products m2) := by
  have hval : ∀ v : PValue,
      validate_price v m = true ↔ ∃ q, v = PValue.num q ∧ 0 < q ∧ q ≤ m := by
    intro v
    cases v with
    | num q =>
      constructor
      · intro h
        simp only [validate_price, Bool.and_eq_true, decide_eq_true_eq] at h
        exact ⟨q, rfl, h.1, h.2⟩
      · rintro ⟨q2, heq, h1, h2⟩
        cases heq
        simp only [validate_price, Bool.and_eq_true, decide_eq_true_eq]
        exact ⟨h1, h2⟩
    | str s =>
      constructor
      · intro h; exact absurd h (by simp [validate_price])
      · rintro ⟨q2, heq, _, _⟩; cases heq
  refine ⟨hval, ?_, List.filter_sublist _, ?_, ?_, ?_⟩
  · intro p hp
    have hv := (List.mem_filter.mp hp).2
    obtain ⟨q, heq, h1, h2⟩ := (hval _).mp hv
    cases hpr : p.price with
    | none =>
      rw [priceOf, hpr] at heq
      cases heq
      exact absurd h1 (lt_irrefl 0)
    | some pv =>
      rw [priceOf, hpr] at heq
      cases heq
      exact ⟨q, rfl, h1, h2⟩
  · intro p hp hb
    obtain ⟨q, heq, h1, h2⟩ := hb
    exact List.mem_filter.mpr ⟨hp, (hval _).mpr ⟨q, heq, h1, h2⟩⟩
  · intro h
    unfold applyPriceFilter
    rw [h]
    simp
  · intro m2 hm2 hne
    unfold applyPriceFilter
    rw [hm2]
    have : truthyPrice (some m2) = true := by
      simp [truthyPrice, hne]
    rw [this]
    simp

/-- C3 witness: on a concrete list with an in-budget price, an over-budget
price, a missing price, a non-numeric price and a zero price, the filter
at `max_price = 100` keeps exactly the in-budget product, a zero
`max_price` disables the step, and a truthy `max_price` applies it. -/
theorem price_filter_spec_witness :
    filter_by_price w3l 100 = [w3a] ∧
    applyPriceFilter { max_price := some 0 } w3l = w3l ∧
    applyPriceFilter { max_price := some 100 } w3l = filter_by_price w3l 100 ∧
    w3a ∈ filter_by_price w3l 100 := by
  refine ⟨by decide, ?_, ?_, ?_⟩
  · exact (price_filter_spec w3l 100 { max_price := some 0 }).2.2.2.2.1 (by decide)
  · exact (price_filter_spec w3l 100 { max_price := some 100 }).2.2.2.2.2 100 rfl
      (by decide)
  · exact (price_filter_spec w3l 100 { max_price := none }).2.2.2.1 w3a (by decide)
      ⟨50, by decide, by decide, by decide⟩

/-- C8: over the data model (no non-numeric prices) `sort_products` always
returns, and returns a permutation of its input; the `price` key sorts
ascending with a missing price as `+infinity` (last among comparable
keys); `platform` and `title` sort ascending lexicographically with a
missing value as the empty string, which is least; any other `sort_by`
value returns the input unchanged rather than erroring. -/
theorem sort_products_spec (products : List Product) (sby : String)
    (hnum : products.all (fun p => !hasStrPrice p) = true) :
    (∀ out, sort_products products sby = .ok out → out.Perm products) ∧
    (sort_products products "price" = .ok (List.insertionSort lePriceRel products) ∧
      List.Sorted lePriceRel (List.insertionSort lePriceRel products)) ∧
    (sort_products products "platform"
        = .ok (List.insertionSort lePlatformRel products) ∧
      List.Sorted lePlatformRel (List.insertionSort lePlatformRel products)) ∧
    (sort_products products "title" = .ok (List.insertionSort leTitleRel products) ∧
      List.Sorted leTitleRel (List.insertionSort leTitleRel products)) ∧
    (sby ≠ "price" → sby ≠ "platform" → sby ≠ "title" →
      sort_products products sby = .ok products) ∧
    (∀ p : Product, p.price = none → priceSortKey p = SKey.inf) ∧
    (∀ k : SKey, keyIsStr k = false → leSKey k SKey.inf = true) ∧
    (∀ s : String, leCharList [] s.data = true) := by
  have hks : products.any (fun p => keyIsStr (priceSortKey p)) = false := by
    rw [List.any_eq_false]
    intro p hp
    rw [keyIsStr_priceSortKey]
    have := List.all_eq_true.mp hnum p hp
    simpa using this
  refine ⟨fun out h => sort_products_ok_perm products sby out h,
    ⟨?_, List.sorted_insertionSort _ _⟩,
    ⟨?_, List.sorted_insertionSort _ _⟩,
    ⟨?_, List.sorted_insertionSort _ _⟩, ?_, ?_, ?_, fun _ => rfl⟩
  · unfold sort_products
    rw [if_pos rfl]
    simp only [hks, Bool.false_and, Bool.false_eq_true, if_false]
  · unfold sort_products
    rw [if_neg (by decide), if_pos rfl]
  · unfold sort_products
    rw [if_neg (by decide), if_neg (by decide), if_pos rfl]
  · intro h1 h2 h3
    unfold sort_products
    rw [if_neg h1, if_neg h2, if_neg h3]
  · intro p hp
    simp [priceSortKey, hp]
  · intro k hk
    cases k with
    | num q => rfl
    | inf => rfl
    | str s => exact absurd hk (by simp [keyIsStr])

/-- C8 witness: on a concrete numeric-priced list the price sort puts the
cheapest first and the missing price last, an unknown sort key passes the
list through, and the output is a permutation of the input. -/
theorem sort_products_spec_witness :
    (w8l.all (fun p => !hasStrPrice p) = true) ∧
    sort_products w8l "price" = .ok [w8c, w8a, w8b] ∧
    sort_products w8l "brand" = .ok w8l ∧
    ∀ out, sort_products w8l "price" = .ok out → out.Perm w8l := by
  exact ⟨by decide, by rfl, by rfl,
    (sort_products_spec w8l "price" (by decide)).1⟩

/-- C1: the coordinator invokes exactly the requested platform ids present
in the provider registry, in request order (unknown ids are silently
skipped and the call still succeeds); every invoked platform — failed ones
included — appears in `results_by_platform`; the combined list is the
concatenation of the `products` of the successful results in request
order; and that combined list is what is handed to the aggregator. -/
theorem coordinator_combined_products (providers : String → ProviderOutcome)
    (task : CoordTask) :
    (CoordinatorAgent.execute providers task).status = "success" ∧
    (CoordinatorAgent.execute providers task).results_by_platform
      = (task.platforms.filter (fun p => decide (p ∈ agentRegistry))).map
          (fun p => (p, BaseAgent.run (providers p))) ∧
    (CoordinatorAgent.execute providers task).all_products
      = ((task.platforms.filter (fun p => decide (p ∈ agentRegistry))).filter
            (fun p => decide ((BaseAgent.run (providers p)).status = "success"))).flatMap
          (fun p => (BaseAgent.run (providers p)).products) ∧
    (CoordinatorAgent.execute providers task).filtered_products
      = (FilterAgent.execute
          { products := (CoordinatorAgent.execute providers task).all_products,
            search_criteria := task.search_criteria,
            filter_duplicates := true, sort_by := "price" }).filtered_products := by
  refine ⟨rfl, rfl, ?_, rfl⟩
  show (((task.platforms.filter (fun p => decide (p ∈ agentRegistry))).map
      (fun p => (p, BaseAgent.run (providers p)))).foldl
        (fun acc pr =>
          if pr.2.status = "success" then acc ++ pr.2.products else acc)
        []) = _
  rw [CoordinatorAgent.foldl_collect, List.nil_append, List.filter_map,
    List.flatMap_map]
  rfl

/-- C7: a provider invocation that raises is captured by `BaseAgent.run`
into a result with status `error` and the message as data; the other
platforms' entries are untouched (each is exactly its own provider's
wrapped result); the coordinator still returns status `success`; the
summary lists the failed platform among `failed_platforms`, the others in
`successful_platforms`, and `total_products_found` sums `count` over
successful platform results only. -/
theorem provider_failure_isolated (providers : String → ProviderOutcome)
    (task : CoordTask) (pf e : String)
    (hp : providers pf = ProviderOutcome.raise e)
    (hmem : pf ∈ task.platforms) (hreg : pf ∈ agentRegistry) :
    (CoordinatorAgent.execute providers task).status = "success" ∧
    BaseAgent.run (providers pf) = { status := "error", error := some e } ∧
    (CoordinatorAgent.execute providers task).results_by_platform
      = (task.platforms.filter (fun p => decide (p ∈ agentRegistry))).map
          (fun p => (p, BaseAgent.run (providers p))) ∧
    (CoordinatorAgent.execute providers task).summary.failed_platforms
      = (task.platforms.filter (fun p => decide (p ∈ agentRegistry))).filter
          (fun p => decide ((BaseAgent.run (providers p)).status ≠ "success")) ∧
    pf ∈ (CoordinatorAgent.execute providers task).summary.failed_platforms ∧
    (CoordinatorAgent.execute providers task).summary.successful_platforms
      = (task.platforms.filter (fun p => decide (p ∈ agentRegistry))).filter
          (fun p => decide ((BaseAgent.run (providers p)).status = "success")) ∧
    (CoordinatorAgent.execute providers task).summary.total_products_found
      = (((task.platforms.filter (fun p => decide (p ∈ agentRegistry))).filter
            (fun p => decide ((BaseAgent.run (providers p)).status = "success"))).map
          (fun p => (BaseAgent.run (providers p)).count)).sum := by
  have hfail : (CoordinatorAgent.execute providers task).summary.failed_platforms
      = (task.platforms.filter (fun p => decide (p ∈ agentRegistry))).filter
          (fun p => decide ((BaseAgent.run (providers p)).status ≠ "success")) := by
    show (((task.platforms.filter (fun p => decide (p ∈ agentRegistry))).map
        (fun p => (p, BaseAgent.run (providers p)))).filter
          (fun pr => decide (pr.2.status ≠ "success"))).map Prod.fst = _
    rw [List.filter_map, List.map_map]
    have hid : (Prod.fst ∘ fun p => (p, BaseAgent.run (providers p)))
        = fun p : String => p := rfl
    rw [hid, List.map_id']
    rfl
  refine ⟨rfl, by rw [hp]; rfl, rfl, hfail, ?_, ?_, ?_⟩
  · rw [hfail]
    refine List.mem_filter.mpr ⟨List.mem_filter.mpr ⟨hmem, by simpa using hreg⟩, ?_⟩
    rw [hp]
    rfl
  · show (((task.platforms.filter (fun p => decide (p ∈ agentRegistry))).map
        (fun p => (p, BaseAgent.run (providers p)))).filter
          (fun pr => decide (pr.2.status = "success"))).map Prod.fst = _
    rw [List.filter_map, List.map_map]
    have hid : (Prod.fst ∘ fun p => (p, BaseAgent.run (providers p)))
        = fun p : String => p := rfl
    rw [hid, List.map_id']
    rfl
  · show ((((task.platforms.filter (fun p => decide (p ∈ agentRegistry))).map
        (fun p => (p, BaseAgent.run (providers p)))).filter
          (fun pr => decide (pr.2.status = "success"))).map
        (fun pr => pr.2.count)).sum = _
    rw [List.filter_map, List.map_map]
    rfl

/-- C7 witness: with `jd` raising `boom`, `taobao` succeeding with two
products and an unknown platform requested, the coordinator succeeds,
counts 2 products, and reports `jd` failed and `taobao` successful. -/
theorem provider_failure_isolated_witness :
    (CoordinatorAgent.execute provB taskB).summary.total_products_found = 2 ∧
    (CoordinatorAgent.execute provB taskB).summary.failed_platforms = ["jd"] ∧
    (CoordinatorAgent.execute provB taskB).summary.successful_platforms = ["taobao"] ∧
    (CoordinatorAgent.execute provB taskB).status = "success" ∧
    "jd" ∈ (CoordinatorAgent.execute provB taskB).summary.failed_platforms := by
  have h := provider_failure_isolated provB taskB "jd" "boom" rfl (by decide) (by decide)
  exact ⟨by decide, by decide, by decide, h.1, h.2.2.2.2.1⟩

/-- C5: whenever the aggregation succeeds, `best_deals` is exactly the
first 5 elements of the filtered product list sorted ascending by the
price key, independently of the `sort_by` key used for the main list;
hence its length is `min 5 filtered_count` and its prices are
non-decreasing. -/
theorem best_deals_spec (task : FilterTask)
    (h : (FilterAgent.execute task).status = "success") :
    ∃ bd, (FilterAgent.execute task).best_deals = some bd ∧
      bd = (List.insertionSort lePriceRel
              (FilterAgent.execute task).filtered_products).take 5 ∧
      bd.length = min 5 (FilterAgent.execute task).filtered_count ∧
      List.Sorted lePriceRel bd := by
  cases hs : sort_products (pipelineInput task) task.sort_by with
  | error e =>
    have hst : (FilterAgent.execute task).status = "error" := by
      simp only [FilterAgent.execute, hs, degradedResult]
    exact absurd (hst.symm.trans h) (by decide)
  | ok products3 =>
    cases ha : analyze_prices products3 with
    | error e =>
      have hst : (FilterAgent.execute task).status = "error" := by
        simp only [FilterAgent.execute, hs, ha, degradedResult]
      exact absurd (hst.symm.trans h) (by decide)
    | ok pa =>
      cases hb : find_best_deals products3 5 with
      | error e =>
        have hst : (FilterAgent.execute task).status = "error" := by
          simp only [FilterAgent.execute, hs, ha, hb, degradedResult]
        exact absurd (hst.symm.trans h) (by decide)
      | ok bd =>
        have hex : FilterAgent.execute task
            = { status := "success", filtered_products := products3,
                original_count := task.products.length,
                filtered_count := products3.length,
                price_analysis := some pa, best_deals := some bd,
                error := none } := by
          simp only [FilterAgent.execute, hs, ha, hb]
        rw [hex]
        have hshape := find_best_deals_ok_shape products3 bd hb
        refine ⟨bd, rfl, hshape, ?_, ?_⟩
        · rw [hshape, List.length_take,
            (List.perm_insertionSort lePriceRel products3).length_eq]
        · rw [hshape]
          exact List.Pairwise.sublist (List.take_sublist _ _)
            (List.sorted_insertionSort _ _)

/-- C5 witness: a concrete successful task whose best deals are the three
products in ascending price order. -/
theorem best_deals_spec_witness :
    (FilterAgent.execute c5task).status = "success" ∧
    (FilterAgent.execute c5task).best_deals = some [q10, q20, q30] ∧
    ∃ bd, (FilterAgent.execute c5task).best_deals = some bd ∧
      bd = (List.insertionSort lePriceRel
              (FilterAgent.execute c5task).filtered_products).take 5 ∧
      bd.length = min 5 (FilterAgent.execute c5task).filtered_count ∧
      List.Sorted lePriceRel bd :=
  ⟨by decide, by decide, best_deals_spec c5task (by decide)⟩

/-- C6: price analysis collects exactly the strictly positive prices of the
input; with none (or an empty list) it returns the zeroed record;
otherwise it returns their count, minimum, maximum, arithmetic mean, and
the median of the ascending-sorted positive prices (middle element for odd
count, mean of the two middle elements for even count), plus per-platform
count/average/min/max over each platform's strictly positive prices. -/
theorem analyze_prices_spec (products : List Product)
    (hnum : products.all (fun p => !hasStrPrice p) = true) :
    (positivePrices products = [] → analyze_prices products = .ok zeroAnalysis) ∧
    (positivePrices products ≠ [] →
      ∃ a, analyze_prices products = .ok a ∧
        a.count = (positivePrices products).length ∧
        a.min ∈ positivePrices products ∧
        (∀ q ∈ positivePrices products, a.min ≤ q) ∧
        a.max ∈ positivePrices products ∧
        (∀ q ∈ positivePrices products, q ≤ a.max) ∧
        a.average = (positivePrices products).sum
            / ((positivePrices products).length : ℚ) ∧
        (∃ S : List ℚ, S.Perm (positivePrices products) ∧ S.Sorted (· ≤ ·) ∧
          a.median =
            (if (positivePrices products).length % 2 = 1 then
              S.getD ((positivePrices products).length / 2) 0
            else
              (S.getD ((positivePrices products).length / 2 - 1) 0
                + S.getD ((positivePrices products).length / 2) 0) / 2)) ∧
        (∀ t : String,
          (a.by_platform.lookup t = none ↔ platformPrices t products = [])) ∧
        (∀ t : String, platformPrices t products ≠ [] →
          ∃ s, a.by_platform.lookup t = some s ∧
            s.count = (platformPrices t products).length ∧
            s.average = (platformPrices t products).sum
                / ((platformPrices t products).length : ℚ) ∧
            s.min ∈ platformPrices t products ∧
            (∀ q ∈ platformPrices t products, s.min ≤ q) ∧
            s.max ∈ platformPrices t products ∧
            (∀ q ∈ platformPrices t products, q ≤ s.max))) := by
  have hstr := any_hasStrPrice_false products hnum
  constructor
  · intro hpos
    unfold analyze_prices
    by_cases hemp : products.isEmpty
    · rw [if_pos hemp]
    · rw [if_neg hemp, hstr]
      simp [hpos]
  · intro hpos
    have hemp : products.isEmpty = false := by
      cases products with
      | nil => exact absurd rfl hpos
      | cons p rest => rfl
    have hSperm : (List.insertionSort (fun a b => a ≤ b) (positivePrices products)).Perm
        (positivePrices products) := List.perm_insertionSort _ _
    have hSsorted : List.Sorted (· ≤ ·)
        (List.insertionSort (fun a b => a ≤ b) (positivePrices products)) :=
      List.sorted_insertionSort _ _
    have hSne : List.insertionSort (fun a b => a ≤ b) (positivePrices products) ≠ [] := by
      intro hnil
      apply hpos
      have hlen := hSperm.length_eq
      rw [hnil] at hlen
      exact List.length_eq_zero.mp hlen.symm
    have hok : analyze_prices products = .ok
        { count := (positivePrices products).length,
          min := pyMin (List.insertionSort (fun a b => a ≤ b) (positivePrices products)),
          max := pyMax (List.insertionSort (fun a b => a ≤ b) (positivePrices products)),
          average := (List.insertionSort (fun a b => a ≤ b) (positivePrices products)).sum
              / ((positivePrices products).length : ℚ),
          median :=
            if (positivePrices products).length % 2 = 1 then
              (List.insertionSort (fun a b => a ≤ b) (positivePrices products)).getD
                ((positivePrices products).length / 2) 0
            else
              ((List.insertionSort (fun a b => a ≤ b) (positivePrices products)).getD
                  ((positivePrices products).length / 2 - 1) 0
                + (List.insertionSort (fun a b => a ≤ b) (positivePrices products)).getD
                  ((positivePrices products).length / 2) 0) / 2,
          by_platform :=
            (groupByPlatform products).map (fun kv => (kv.1, mkStats kv.2)) } := by
      unfold analyze_prices
      rw [hemp, hstr]
      simp only [Bool.false_eq_true, if_false]
      rw [if_neg (by simpa using hpos)]
    have hlt : ∀ t : String,
        ((groupByPlatform products).map (fun kv => (kv.1, mkStats kv.2))).lookup t
          = if platformPrices t products = [] then none
            else some (mkStats (platformPrices t products)) := by
      intro t
      rw [lookup_map_pair, lookup_groupByPlatform]
      by_cases hpp : platformPrices t products = [] <;> simp [hpp]
    refine ⟨_, hok, rfl, ?_, ?_, ?_, ?_, ?_,
      ⟨List.insertionSort (fun a b => a ≤ b) (positivePrices products),
        hSperm, hSsorted, rfl⟩, ?_, ?_⟩
    · exact hSperm.subset (pyMin_mem _ hSne)
    · intro q hq
      exact pyMin_le _ q (hSperm.mem_iff.mpr hq)
    · exact hSperm.subset (pyMax_mem _ hSne)
    · intro q hq
      exact le_pyMax _ q (hSperm.mem_iff.mpr hq)
    · show (List.insertionSort (fun a b => a ≤ b) (positivePrices products)).sum
          / ((positivePrices products).length : ℚ) = _
      rw [hSperm.sum_eq]
    · intro t
      show ((groupByPlatform products).map (fun kv => (kv.1, mkStats kv.2))).lookup t
          = none ↔ _
      rw [hlt t]
      by_cases hpp : platformPrices t products = [] <;> simp [hpp]
    · intro t hppne
      refine ⟨mkStats (platformPrices t products), ?_, rfl, rfl, ?_, ?_, ?_, ?_⟩
      · show ((groupByPlatform products).map (fun kv => (kv.1, mkStats kv.2))).lookup t = _
        rw [hlt t, if_neg hppne]
      · exact pyMin_mem _ hppne
      · exact fun q hq => pyMin_le _ q hq
      · exact pyMax_mem _ hppne
      · exact fun q hq => le_pyMax _ q hq

/-- C6 witness: on concrete products with prices 10, 20, 30 (20 and 30 on
platform `jd`) the analysis succeeds with count 3 and median 20; with a
fourth price 40 the even-count median is 25. -/
theorem analyze_prices_spec_witness :
    (∃ a, analyze_prices [q10, q20, q30] = Except.ok a
        ∧ a.count = (positivePrices [q10, q20, q30]).length) ∧
    (analyze_prices [q10, q20, q30]).toOption.map (fun a => a.median) = some 20 ∧
    (analyze_prices [q10, q20, q30, q40]).toOption.map (fun a => a.median) = some 25 := by
  refine ⟨?_, by decide, ?_⟩
  · obtain ⟨a, ha, hc, _⟩ :=
      (analyze_prices_spec [q10, q20, q30] (by decide)).2 (by decide)
    exact ⟨a, ha, hc⟩
  · have h : (analyze_prices [q10, q20, q30, q40]).toOption.map (fun a => a.median)
        = some (((20 : ℚ) + 30) / 2) := rfl
    rw [h]
    norm_num

end ClaimTheorems

end SmartProductFinder
